import Mathlib

/-!
Shallow embedding of the Breakout simulation core of
`Breakout Game/Breakout_turtle.py`: paddle, ball and brick state, the
collision-resolution engine and the game state machine.  The rendering
layer (turtle drawing, HUD text, screen timers) is omitted; the mutable
module-level variable `BALL_SPEED_START` is embedded as the explicit
field `ball_speed_start` of the game state, and the ambient random
launch angle is passed as an explicit argument to `launch`.
-/

namespace Breakout

noncomputable section

/-! ### Configuration constants (the CONFIG block of the source) -/

def WIDTH : ℝ := 900

def HEIGHT : ℝ := 650

def TOP_WALL : ℝ := HEIGHT / 2 - 30

def BOTTOM_WALL : ℝ := -(HEIGHT / 2) + 30

def PADDLE_Y : ℝ := BOTTOM_WALL + 45

def PADDLE_W : ℝ := 120

def PADDLE_H : ℝ := 18

def PADDLE_SPEED : ℝ := 30

def BALL_SIZE : ℝ := 12

def BALL_SPEED_START : ℝ := 6

def BALL_SPEED_MAX : ℝ := 14

def BRICK_COLS : ℕ := 10

def BRICK_ROWS : ℕ := 6

def BRICK_W : ℝ := 78

def BRICK_H : ℝ := 24

def BRICK_GAP_X : ℝ := 10

def BRICK_GAP_Y : ℝ := 10

def BRICK_TOP_MARGIN : ℝ := 70

def LIVES_START : ℤ := 3

/-! ### Helpers -/

def clamp (x lo hi : ℝ) : ℝ := max lo (min hi x)

/-- Axis-aligned bounding box collision (`aabb_collide` in the source). -/
def aabb_collide (ax ay aw ah bx bcy bw bh : ℝ) : Prop :=
  |ax - bx| * 2 < aw + bw ∧ |ay - bcy| * 2 < ah + bh

instance (ax ay aw ah bx bcy bw bh : ℝ) :
    Decidable (aabb_collide ax ay aw ah bx bcy bw bh) := by
  unfold aabb_collide; infer_instance

/-- Model of `math.hypot`. -/
def hypot (x y : ℝ) : ℝ := Real.sqrt (x * x + y * y)

/-! ### Paddle -/

structure Paddle where
  x : ℝ
  y : ℝ

def move_left (p : Paddle) : Paddle :=
  let limit := WIDTH / 2 - PADDLE_W / 2 - 12
  { p with x := clamp (p.x - PADDLE_SPEED) (-limit) limit }

def move_right (p : Paddle) : Paddle :=
  let limit := WIDTH / 2 - PADDLE_W / 2 - 12
  { p with x := clamp (p.x + PADDLE_SPEED) (-limit) limit }

/-! ### Ball -/

structure Ball where
  x : ℝ
  y : ℝ
  dx : ℝ
  dy : ℝ
  speed_mag : ℝ
  stuck : Bool

/-- `Ball.reset_to_paddle`; `speed_start` is the current value of the
module-level `BALL_SPEED_START`. -/
def reset_to_paddle (b : Ball) (p : Paddle) (speed_start : ℝ) : Ball :=
  { b with stuck := true, speed_mag := speed_start, dx := 0, dy := 0,
           x := p.x, y := p.y + 20 }

/-- `Ball.launch`; `angle` (degrees) is the value drawn by
`random.uniform(35, 145)`. -/
def launch (b : Ball) (angle : ℝ) : Ball :=
  if b.stuck = false then b
  else
    let rad := angle * Real.pi / 180
    { b with stuck := false,
             dx := Real.cos rad * b.speed_mag,
             dy := Real.sin rad * b.speed_mag }

def update (b : Ball) : Ball :=
  if b.stuck then b else { b with x := b.x + b.dx, y := b.y + b.dy }

def speed_up (b : Ball) (amount : ℝ) : Ball :=
  let new_mag := min BALL_SPEED_MAX (b.speed_mag + amount)
  let mag := hypot b.dx b.dy
  if mag > 0 then
    { b with speed_mag := new_mag,
             dx := b.dx / mag * new_mag,
             dy := b.dy / mag * new_mag }
  else { b with speed_mag := new_mag }

/-! ### Bricks -/

structure Brick where
  x : ℝ
  y : ℝ
  color : String
  visible : Bool

def brick_colors : List String :=
  ["#ff4d4d", "#ff944d", "#ffd24d", "#b3ff66", "#4dd2ff", "#b366ff"]

def bricks_start_x : ℝ :=
  -((BRICK_COLS : ℝ) * BRICK_W + ((BRICK_COLS : ℝ) - 1) * BRICK_GAP_X) / 2
    + BRICK_W / 2

def bricks_start_y : ℝ := TOP_WALL - BRICK_TOP_MARGIN

/-- The brick created for row `r`, column `c` (`Brick(x, y, color)` with
the coordinates computed in `build_bricks`). -/
def brick_at (r c : ℕ) : Brick :=
  { x := bricks_start_x + (c : ℝ) * (BRICK_W + BRICK_GAP_X),
    y := bricks_start_y - (r : ℝ) * (BRICK_H + BRICK_GAP_Y),
    color := brick_colors.getD (r % brick_colors.length) "",
    visible := true }

/-- `build_bricks`: row-major creation order, top row first, then
left-to-right within a row. -/
def build_bricks : List Brick :=
  (List.range BRICK_ROWS).flatMap fun r =>
    (List.range BRICK_COLS).map fun c => brick_at r c

/-! ### Game state -/

structure BreakoutGame where
  paddle : Paddle
  ball : Ball
  bricks : List Brick
  score : ℤ
  lives : ℤ
  level : ℤ
  game_over : Bool
  ball_speed_start : ℝ

def reset_round (g : BreakoutGame) (full_reset : Bool) : BreakoutGame :=
  let g1 := if full_reset then
              { g with score := 0, lives := LIVES_START, level := 1 }
            else g
  let paddle : Paddle := { x := 0, y := PADDLE_Y }
  { g1 with bricks := build_bricks,
            paddle := paddle,
            ball := reset_to_paddle g1.ball paddle g1.ball_speed_start,
            game_over := false }

def next_level (g : BreakoutGame) : BreakoutGame :=
  let new_start := min 10 (g.ball_speed_start + 1 / 2)
  { g with level := g.level + 1,
           ball_speed_start := new_start,
           bricks := build_bricks,
           ball := reset_to_paddle g.ball g.paddle new_start }

def restart (g : BreakoutGame) : BreakoutGame :=
  reset_round { g with ball_speed_start := 6 } true

/-! ### Collision resolution -/

def paddle_ball_collision (g : BreakoutGame) : BreakoutGame :=
  if g.ball.stuck then
    { g with ball := { g.ball with x := g.paddle.x, y := g.paddle.y + 20 } }
  else if aabb_collide g.ball.x g.ball.y BALL_SIZE BALL_SIZE
            g.paddle.x g.paddle.y PADDLE_W PADDLE_H ∧ g.ball.dy < 0 then
    let offset := clamp ((g.ball.x - g.paddle.x) / (PADDLE_W / 2)) (-1) 1
    let angle := 90 + offset * 60
    let rad := angle * Real.pi / 180
    let b1 := { g.ball with dx := Real.cos rad * g.ball.speed_mag,
                            dy := |Real.sin rad * g.ball.speed_mag| }
    let b2 := speed_up b1 (15 / 100)
    { g with ball := { b2 with y := g.paddle.y + 28 } }
  else g

def wall_collisions (g : BreakoutGame) : BreakoutGame :=
  if g.ball.stuck then g
  else
    let x := g.ball.x
    let y := g.ball.y
    let half_w := WIDTH / 2 - 15
    let g1 :=
      if x ≥ half_w - BALL_SIZE ∧ g.ball.dx > 0 then
        { g with ball := { g.ball with dx := -g.ball.dx,
                                       x := half_w - BALL_SIZE } }
      else if x ≤ -half_w + BALL_SIZE ∧ g.ball.dx < 0 then
        { g with ball := { g.ball with dx := -g.ball.dx,
                                       x := -half_w + BALL_SIZE } }
      else g
    let g2 :=
      if y ≥ TOP_WALL - BALL_SIZE ∧ g1.ball.dy > 0 then
        { g1 with ball := { g1.ball with dy := -g1.ball.dy,
                                         y := TOP_WALL - BALL_SIZE } }
      else g1
    if y ≤ BOTTOM_WALL - 60 then
      let new_lives := g2.lives - 1
      if new_lives ≤ 0 then
        { g2 with lives := new_lives, game_over := true }
      else
        { g2 with lives := new_lives,
                  ball := reset_to_paddle g2.ball g2.paddle g2.ball_speed_start }
    else g2

/-- Does the ball at `(bx, yy)` hit brick `b`: the brick is visible and
the bounding boxes overlap (the two tests guarding the loop body of
`brick_collisions`). -/
def brick_hit (bx yy : ℝ) (b : Brick) : Prop :=
  b.visible = true ∧ aabb_collide bx yy BALL_SIZE BALL_SIZE b.x b.y BRICK_W BRICK_H

instance (bx yy : ℝ) (b : Brick) : Decidable (brick_hit bx yy b) := by
  unfold brick_hit; infer_instance

/-- The bounce applied on the winning brick: invert `dx` when the
horizontal overlap (penetration) is smaller, otherwise invert `dy`. -/
def brick_bounce (ball : Ball) (bx yy : ℝ) (b : Brick) : Ball :=
  let dx := bx - b.x
  let dy := yy - b.y
  let overlap_x := (BRICK_W / 2 + BALL_SIZE / 2) - |dx|
  let overlap_y := (BRICK_H / 2 + BALL_SIZE / 2) - |dy|
  if overlap_x < overlap_y then { ball with dx := -ball.dx }
  else { ball with dy := -ball.dy }

/-- The `for brick in self.bricks` loop of `brick_collisions`: scan the
bricks in list (creation) order, resolve the first visible overlapping
brick and stop.  Returns the updated brick list, ball and score. -/
def brick_scan_aux (ball : Ball) (bx yy : ℝ) (score : ℤ) :
    List Brick → List Brick × Ball × ℤ
  | [] => ([], ball, score)
  | b :: rest =>
    if brick_hit bx yy b then
      ({ b with visible := false } :: rest,
        speed_up (brick_bounce ball bx yy b) (5 / 100), score + 10)
    else
      let r := brick_scan_aux ball bx yy score rest
      (b :: r.1, r.2.1, r.2.2)

def brick_scan (g : BreakoutGame) : BreakoutGame :=
  let r := brick_scan_aux g.ball g.ball.x g.ball.y g.score g.bricks
  { g with bricks := r.1, ball := r.2.1, score := r.2.2 }

def brick_collisions (g : BreakoutGame) : BreakoutGame :=
  if g.ball.stuck then g
  else
    let g1 := brick_scan g
    if g1.bricks.all (fun b => !b.visible) then next_level g1 else g1

/-! ### Tick -/

/-- The physics phases of `tick` that precede `brick_collisions`:
`ball.update()`, then `paddle_ball_collision()`, then
`wall_collisions()`. -/
def advance (g : BreakoutGame) : BreakoutGame :=
  wall_collisions (paddle_ball_collision { g with ball := update g.ball })

def tick (g : BreakoutGame) : BreakoutGame :=
  if g.game_over then g
  else brick_collisions (advance g)

/-- The pair `(before, after)` of a brick records a visible-to-invisible
transition (`after` is first, matching `new.zip old`). -/
def vis_to_invis (p : Brick × Brick) : Bool := p.2.visible && !p.1.visible

/-! ### Frame lemmas -/

lemma paddle_ball_collision_frame (g : BreakoutGame) :
    (paddle_ball_collision g).bricks = g.bricks ∧
    (paddle_ball_collision g).score = g.score ∧
    (paddle_ball_collision g).lives = g.lives ∧
    (paddle_ball_collision g).level = g.level ∧
    (paddle_ball_collision g).game_over = g.game_over ∧
    (paddle_ball_collision g).ball_speed_start = g.ball_speed_start ∧
    (paddle_ball_collision g).paddle = g.paddle := by
  unfold paddle_ball_collision
  dsimp only
  split_ifs <;> simp

lemma wall_collisions_frame (g : BreakoutGame) :
    (wall_collisions g).bricks = g.bricks ∧
    (wall_collisions g).score = g.score ∧
    (wall_collisions g).level = g.level ∧
    (wall_collisions g).ball_speed_start = g.ball_speed_start ∧
    (wall_collisions g).paddle = g.paddle := by
  unfold wall_collisions
  dsimp only
  split_ifs <;> simp

@[simp] lemma brick_scan_lives (g : BreakoutGame) :
    (brick_scan g).lives = g.lives := rfl

@[simp] lemma brick_scan_level (g : BreakoutGame) :
    (brick_scan g).level = g.level := rfl

@[simp] lemma brick_scan_game_over (g : BreakoutGame) :
    (brick_scan g).game_over = g.game_over := rfl

@[simp] lemma brick_scan_speed_start (g : BreakoutGame) :
    (brick_scan g).ball_speed_start = g.ball_speed_start := rfl

@[simp] lemma brick_scan_paddle (g : BreakoutGame) :
    (brick_scan g).paddle = g.paddle := rfl

@[simp] lemma next_level_lives (g : BreakoutGame) :
    (next_level g).lives = g.lives := rfl

@[simp] lemma next_level_bricks (g : BreakoutGame) :
    (next_level g).bricks = build_bricks := rfl

@[simp] lemma next_level_score (g : BreakoutGame) :
    (next_level g).score = g.score := rfl

@[simp] lemma next_level_game_over (g : BreakoutGame) :
    (next_level g).game_over = g.game_over := rfl

@[simp] lemma advance_bricks (g : BreakoutGame) :
    (advance g).bricks = g.bricks := by
  unfold advance
  rw [(wall_collisions_frame _).1, (paddle_ball_collision_frame _).1]

@[simp] lemma advance_score (g : BreakoutGame) :
    (advance g).score = g.score := by
  unfold advance
  rw [(wall_collisions_frame _).2.1, (paddle_ball_collision_frame _).2.1]

@[simp] lemma advance_level (g : BreakoutGame) :
    (advance g).level = g.level := by
  unfold advance
  rw [(wall_collisions_frame _).2.2.1, (paddle_ball_collision_frame _).2.2.2.1]

@[simp] lemma advance_speed_start (g : BreakoutGame) :
    (advance g).ball_speed_start = g.ball_speed_start := by
  unfold advance
  rw [(wall_collisions_frame _).2.2.2.1,
      (paddle_ball_collision_frame _).2.2.2.2.2.1]

@[simp] lemma advance_paddle (g : BreakoutGame) :
    (advance g).paddle = g.paddle := by
  unfold advance
  rw [(wall_collisions_frame _).2.2.2.2,
      (paddle_ball_collision_frame _).2.2.2.2.2.2]

/-! ### Brick-scan lemmas -/

lemma brick_scan_aux_of_no_hit (ball : Ball) (bx yy : ℝ) (score : ℤ)
    (l : List Brick) (h : ∀ b ∈ l, ¬ brick_hit bx yy b) :
    brick_scan_aux ball bx yy score l = (l, ball, score) := by
  induction l with
  | nil => rfl
  | cons b rest ih =>
    rw [brick_scan_aux, if_neg (h b (List.mem_cons_self b rest)),
        ih (fun b' hb' => h b' (List.mem_cons_of_mem b hb'))]

lemma brick_scan_aux_of_hit (ball : Ball) (bx yy : ℝ) (score : ℤ)
    (pre : List Brick) (h : Brick) (post : List Brick)
    (hpre : ∀ b ∈ pre, ¬ brick_hit bx yy b) (hh : brick_hit bx yy h) :
    brick_scan_aux ball bx yy score (pre ++ h :: post) =
      (pre ++ { h with visible := false } :: post,
        speed_up (brick_bounce ball bx yy h) (5 / 100), score + 10) := by
  induction pre with
  | nil => simp only [List.nil_append, brick_scan_aux, if_pos hh]
  | cons b rest ih =>
    rw [List.cons_append, brick_scan_aux,
        if_neg (hpre b (List.mem_cons_self b rest)),
        ih (fun b' hb' => hpre b' (List.mem_cons_of_mem b hb'))]
    rfl

lemma brick_scan_aux_cases (ball : Ball) (bx yy : ℝ) (score : ℤ)
    (l : List Brick) :
    brick_scan_aux ball bx yy score l = (l, ball, score) ∨
    ∃ pre h post, l = pre ++ h :: post ∧
      (∀ b ∈ pre, ¬ brick_hit bx yy b) ∧ brick_hit bx yy h ∧
      brick_scan_aux ball bx yy score l =
        (pre ++ { h with visible := false } :: post,
          speed_up (brick_bounce ball bx yy h) (5 / 100), score + 10) := by
  induction l with
  | nil => left; rfl
  | cons b rest ih =>
    by_cases hb : brick_hit bx yy b
    · right
      refine ⟨[], b, rest, by simp, by simp, hb, ?_⟩
      simp only [List.nil_append, brick_scan_aux, if_pos hb]
    · rcases ih with hsc | ⟨pre, h, post, hdec, hpre, hh, hsc⟩
      · left
        rw [brick_scan_aux, if_neg hb, hsc]
      · right
        refine ⟨b :: pre, h, post, by rw [hdec, List.cons_append], ?_, hh, ?_⟩
        · intro b' hb'
          rcases List.mem_cons.mp hb' with rfl | hb'
          · exact hb
          · exact hpre b' hb'
        · rw [brick_scan_aux, if_neg hb, hsc, List.cons_append]

/-! ### Counting visible-to-invisible transitions -/

lemma vis_to_invis_self (b : Brick) : vis_to_invis (b, b) = false := by
  cases hb : b.visible <;> simp [vis_to_invis, hb]

lemma countP_vis_zip_self (l : List Brick) :
    (l.zip l).countP vis_to_invis = 0 := by
  induction l with
  | nil => rfl
  | cons b rest ih =>
    rw [List.zip_cons_cons, List.countP_cons, ih, vis_to_invis_self]
    rfl

lemma countP_vis_zip_all_visible (new old : List Brick)
    (h : ∀ b ∈ new, b.visible = true) :
    (new.zip old).countP vis_to_invis = 0 := by
  rw [List.countP_eq_zero]
  intro p hp
  have h1 : p.1 ∈ new := (List.of_mem_zip hp).1
  simp [vis_to_invis, h p.1 h1]

lemma countP_vis_zip_one_flip (pre post : List Brick) (h h' : Brick) :
    (((pre ++ h' :: post).zip (pre ++ h :: post)).countP vis_to_invis) ≤ 1 := by
  rw [List.zip_append rfl, List.countP_append, List.zip_cons_cons,
      List.countP_cons, countP_vis_zip_self, countP_vis_zip_self]
  cases hv : vis_to_invis (h', h) <;> simp [hv]

lemma build_bricks_visible : ∀ b ∈ build_bricks, b.visible = true := by
  intro b hb
  simp only [build_bricks, List.mem_flatMap, List.mem_map] at hb
  obtain ⟨r, -, c, -, rfl⟩ := hb
  rfl

@[simp] lemma brick_scan_bricks (g : BreakoutGame) :
    (brick_scan g).bricks =
      (brick_scan_aux g.ball g.ball.x g.ball.y g.score g.bricks).1 := rfl

@[simp] lemma brick_scan_ball (g : BreakoutGame) :
    (brick_scan g).ball =
      (brick_scan_aux g.ball g.ball.x g.ball.y g.score g.bricks).2.1 := rfl

@[simp] lemma brick_scan_score (g : BreakoutGame) :
    (brick_scan g).score =
      (brick_scan_aux g.ball g.ball.x g.ball.y g.score g.bricks).2.2 := rfl

lemma brick_collisions_of_stuck (g : BreakoutGame)
    (h : g.ball.stuck = true) : brick_collisions g = g := by
  simp [brick_collisions, h]

lemma brick_collisions_of_not_stuck (g : BreakoutGame)
    (h : g.ball.stuck = false) :
    brick_collisions g =
      (if (brick_scan g).bricks.all (fun b => !b.visible)
       then next_level (brick_scan g) else brick_scan g) := by
  rw [brick_collisions, if_neg (by simp [h])]

/-- The result of `brick_collisions` when the first visible overlapping
brick is `h` and at least one other brick stays visible (so the
level-complete branch is not taken). -/
lemma brick_collisions_hit (g : BreakoutGame)
    (hst : g.ball.stuck = false)
    (pre : List Brick) (h : Brick) (post : List Brick)
    (hdec : g.bricks = pre ++ h :: post)
    (hpre : ∀ b ∈ pre, ¬ brick_hit g.ball.x g.ball.y b)
    (hh : brick_hit g.ball.x g.ball.y h)
    (hvis : ∃ b ∈ pre ++ post, b.visible = true) :
    brick_collisions g =
      { g with bricks := pre ++ { h with visible := false } :: post,
               ball := speed_up (brick_bounce g.ball g.ball.x g.ball.y h) (5 / 100),
               score := g.score + 10 } := by
  have hscan : brick_scan g =
      { g with bricks := pre ++ { h with visible := false } :: post,
               ball := speed_up (brick_bounce g.ball g.ball.x g.ball.y h) (5 / 100),
               score := g.score + 10 } := by
    unfold brick_scan
    rw [hdec, brick_scan_aux_of_hit _ _ _ _ _ _ _ hpre hh]
  have hall : ((pre ++ { h with visible := false } :: post).all
      (fun b => !b.visible)) = false := by
    obtain ⟨b, hb, hbv⟩ := hvis
    by_contra hcon
    have htrue : ((pre ++ { h with visible := false } :: post).all
        (fun b => !b.visible)) = true := by
      cases hx : ((pre ++ { h with visible := false } :: post).all
          (fun b => !b.visible)) with
      | false => exact absurd hx hcon
      | true => rfl
    have hmem : b ∈ pre ++ { h with visible := false } :: post := by
      rcases List.mem_append.mp hb with hb' | hb'
      · exact List.mem_append.mpr (Or.inl hb')
      · exact List.mem_append.mpr (Or.inr (List.mem_cons_of_mem _ hb'))
    have := List.all_eq_true.mp htrue b hmem
    simp [hbv] at this
  unfold brick_collisions
  rw [if_neg (by simp [hst])]
  simp only [hscan, hall]
  simp

/-- C1: on every `tick` call at most one brick transitions from visible
to invisible (counted index-wise over the brick list), and when the
brick list splits as `pre ++ h :: post` with no brick of `pre` hit by
the ball and `h` hit (the first visible overlapping brick in creation
order), only `h` is hidden and every brick after it is left untouched
(the scan stops at `h`); `pre ++ post` holding a visible brick rules
the level-complete rebuild out. -/
theorem tick_destroys_at_most_first_hit_brick (g : BreakoutGame) :
    (((tick g).bricks.zip g.bricks).countP vis_to_invis ≤ 1) ∧
    (∀ pre h post, g.game_over = false →
      (advance g).ball.stuck = false →
      g.bricks = pre ++ h :: post →
      (∀ b ∈ pre, ¬ brick_hit (advance g).ball.x (advance g).ball.y b) →
      brick_hit (advance g).ball.x (advance g).ball.y h →
      (∃ b ∈ pre ++ post, b.visible = true) →
      (tick g).bricks = pre ++ { h with visible := false } :: post) := by
  constructor
  · by_cases hgo : g.game_over = true
    · rw [tick, if_pos hgo]
      simp [countP_vis_zip_self]
    · rw [tick, if_neg hgo]
      by_cases hst : (advance g).ball.stuck = true
      · rw [brick_collisions_of_stuck _ hst, advance_bricks]
        simp [countP_vis_zip_self]
      · have hstf : (advance g).ball.stuck = false := by
          cases hx : (advance g).ball.stuck with
          | false => rfl
          | true => exact absurd hx hst
        rw [brick_collisions_of_not_stuck _ hstf]
        rcases brick_scan_aux_cases (advance g).ball (advance g).ball.x
            (advance g).ball.y (advance g).score (advance g).bricks with
          hsc | ⟨pre, h, post, hdec, hpre, hh, hsc⟩
        · have hbr : (brick_scan (advance g)).bricks = g.bricks := by
            rw [brick_scan_bricks, hsc, advance_bricks]
          by_cases hall : ((brick_scan (advance g)).bricks.all
              fun b => !b.visible) = true
          · rw [if_pos hall, next_level_bricks]
            exact le_of_eq_of_le
              (countP_vis_zip_all_visible _ _ build_bricks_visible)
              (Nat.zero_le 1)
          · rw [if_neg hall, hbr]
            simp [countP_vis_zip_self]
        · have hbr : (brick_scan (advance g)).bricks =
              pre ++ { h with visible := false } :: post := by
            rw [brick_scan_bricks, hsc]
          by_cases hall : ((brick_scan (advance g)).bricks.all
              fun b => !b.visible) = true
          · rw [if_pos hall, next_level_bricks]
            exact le_of_eq_of_le
              (countP_vis_zip_all_visible _ _ build_bricks_visible)
              (Nat.zero_le 1)
          · rw [if_neg hall, hbr]
            rw [advance_bricks] at hdec
            rw [hdec]
            exact countP_vis_zip_one_flip pre post h _
  · intro pre h post hgo hst hdec hpre hh hvis
    rw [tick, if_neg (by simp [hgo])]
    rw [brick_collisions_hit (advance g) hst pre h post
      (by rw [advance_bricks, hdec]) hpre hh hvis]

@[simp] lemma speed_up_speed_mag (b : Ball) (a : ℝ) :
    (speed_up b a).speed_mag = min BALL_SPEED_MAX (b.speed_mag + a) := by
  unfold speed_up
  dsimp only
  split_ifs <;> rfl

@[simp] lemma brick_bounce_speed_mag (ball : Ball) (bx yy : ℝ) (b : Brick) :
    (brick_bounce ball bx yy b).speed_mag = ball.speed_mag := by
  unfold brick_bounce
  dsimp only
  split_ifs <;> rfl

/-- C2: resolving a brick hit inverts the velocity component of the
axis with the smaller penetration, hides exactly that brick, adds 10 to
the score, and applies the brick-hit speed increment `0.05`, which is
smaller than the paddle-bounce increment `0.15`; the resulting speed
magnitude is `min BALL_SPEED_MAX (old + 0.05)`. -/
theorem brick_hit_resolution (g : BreakoutGame)
    (pre : List Brick) (h : Brick) (post : List Brick)
    (hgo : g.game_over = false)
    (hst : (advance g).ball.stuck = false)
    (hdec : g.bricks = pre ++ h :: post)
    (hpre : ∀ b ∈ pre, ¬ brick_hit (advance g).ball.x (advance g).ball.y b)
    (hh : brick_hit (advance g).ball.x (advance g).ball.y h)
    (hvis : ∃ b ∈ pre ++ post, b.visible = true) :
    (tick g).bricks = pre ++ { h with visible := false } :: post ∧
    (tick g).score = g.score + 10 ∧
    (tick g).ball =
      speed_up (brick_bounce (advance g).ball (advance g).ball.x
        (advance g).ball.y h) (5 / 100) ∧
    (tick g).ball.speed_mag =
      min BALL_SPEED_MAX ((advance g).ball.speed_mag + 5 / 100) ∧
    ((BRICK_W / 2 + BALL_SIZE / 2) - |(advance g).ball.x - h.x| <
        (BRICK_H / 2 + BALL_SIZE / 2) - |(advance g).ball.y - h.y| →
      brick_bounce (advance g).ball (advance g).ball.x (advance g).ball.y h =
        { (advance g).ball with dx := -(advance g).ball.dx }) ∧
    (¬((BRICK_W / 2 + BALL_SIZE / 2) - |(advance g).ball.x - h.x| <
        (BRICK_H / 2 + BALL_SIZE / 2) - |(advance g).ball.y - h.y|) →
      brick_bounce (advance g).ball (advance g).ball.x (advance g).ball.y h =
        { (advance g).ball with dy := -(advance g).ball.dy }) ∧
    (5 / 100 : ℝ) < 15 / 100 := by
  have hkey := brick_collisions_hit (advance g) hst pre h post
      (by rw [advance_bricks, hdec]) hpre hh hvis
  have htick : tick g = brick_collisions (advance g) := by
    rw [tick, if_neg (by simp [hgo])]
  rw [htick, hkey]
  refine ⟨rfl, by simp, rfl, by simp, ?_, ?_, by norm_num⟩
  · intro hlt
    unfold brick_bounce
    dsimp only
    rw [if_pos hlt]
  · intro hge
    unfold brick_bounce
    dsimp only
    rw [if_neg hge]

/-! ### Concrete states used by the witnesses -/

def ball_free_origin : Ball :=
  { x := 0, y := 0, dx := 0, dy := 0, speed_mag := 6, stuck := false }

def brick_center : Brick := { x := 0, y := 0, color := "", visible := true }

def brick_side : Brick := { x := 200, y := 0, color := "", visible := true }

def gW : BreakoutGame :=
  { paddle := { x := 0, y := PADDLE_Y },
    ball := ball_free_origin,
    bricks := [brick_center, brick_side],
    score := 0, lives := 3, level := 1, game_over := false,
    ball_speed_start := 6 }

lemma advance_gW : advance gW = gW := by
  norm_num [advance, gW, ball_free_origin, update, paddle_ball_collision,
    wall_collisions, aabb_collide, clamp, PADDLE_Y, BOTTOM_WALL, TOP_WALL,
    WIDTH, HEIGHT, BALL_SIZE, PADDLE_W, PADDLE_H]

lemma gW_hit : brick_hit (advance gW).ball.x (advance gW).ball.y brick_center := by
  rw [advance_gW]
  unfold brick_hit
  refine ⟨rfl, ?_⟩
  norm_num [aabb_collide, gW, ball_free_origin, brick_center, BALL_SIZE,
    BRICK_W, BRICK_H]

lemma gW_side_visible : ∃ b ∈ ([] : List Brick) ++ [brick_side],
    b.visible = true := ⟨brick_side, by simp, rfl⟩

/-- Witness for C1 at a concrete two-brick state. -/
theorem tick_destroys_at_most_first_hit_brick_witness :
    (tick gW).bricks = [{ brick_center with visible := false }, brick_side] := by
  have h := (tick_destroys_at_most_first_hit_brick gW).2 [] brick_center
    [brick_side] rfl (by rw [advance_gW]; rfl) rfl (by simp) gW_hit gW_side_visible
  simpa using h

/-- Witness for C2 at a concrete two-brick state. -/
theorem brick_hit_resolution_witness :
    (tick gW).score = gW.score + 10 := by
  exact (brick_hit_resolution gW [] brick_center [brick_side] rfl
    (by rw [advance_gW]; rfl) rfl (by simp) gW_hit gW_side_visible).2.1

/-! ### Wall collisions: bottom-breach behaviour -/

@[simp] lemma update_stuck (b : Ball) : (update b).stuck = b.stuck := by
  unfold update
  split_ifs <;> rfl

@[simp] lemma speed_up_stuck (b : Ball) (a : ℝ) :
    (speed_up b a).stuck = b.stuck := by
  unfold speed_up
  dsimp only
  split_ifs <;> rfl

@[simp] lemma paddle_ball_collision_ball_stuck (g : BreakoutGame) :
    (paddle_ball_collision g).ball.stuck = g.ball.stuck := by
  unfold paddle_ball_collision
  dsimp only
  split_ifs <;> simp

lemma paddle_ball_collision_of_stuck (g : BreakoutGame)
    (h : g.ball.stuck = true) :
    paddle_ball_collision g =
      { g with ball := { g.ball with x := g.paddle.x, y := g.paddle.y + 20 } } := by
  unfold paddle_ball_collision
  rw [if_pos h]

lemma wall_collisions_of_stuck (g : BreakoutGame)
    (h : g.ball.stuck = true) : wall_collisions g = g := by
  unfold wall_collisions
  rw [if_pos h]

/-- A bottom-wall breach that exhausts the lives: the game enters the
terminal state, the life counter drops by one and the ball is neither
reset nor moved vertically. -/
lemma wall_collisions_fatal (g : BreakoutGame)
    (hst : g.ball.stuck = false)
    (hy : g.ball.y ≤ BOTTOM_WALL - 60)
    (hl : g.lives ≤ 1) :
    (wall_collisions g).game_over = true ∧
    (wall_collisions g).lives = g.lives - 1 ∧
    (wall_collisions g).ball.y = g.ball.y ∧
    (wall_collisions g).ball.stuck = false := by
  unfold wall_collisions
  rw [if_neg (by simp [hst])]
  dsimp only
  split_ifs <;>
    first
      | exact ⟨rfl, rfl, rfl, hst⟩
      | (exfalso;
         try casesm* _ ∧ _;
         try simp_all [TOP_WALL, BOTTOM_WALL, BALL_SIZE, HEIGHT, WIDTH];
         try omega;
         try linarith)

/-- How `wall_collisions` changes `lives`: a decrement exactly on a
bottom breach of a free ball, otherwise no change. -/
lemma wall_collisions_lives (g : BreakoutGame) :
    (g.ball.stuck = false ∧ g.ball.y ≤ BOTTOM_WALL - 60 →
      (wall_collisions g).lives = g.lives - 1) ∧
    (g.ball.stuck = true ∨ ¬(g.ball.y ≤ BOTTOM_WALL - 60) →
      (wall_collisions g).lives = g.lives) := by
  constructor
  · rintro ⟨hst, hy⟩
    unfold wall_collisions
    rw [if_neg (by simp [hst])]
    dsimp only
    split_ifs <;> rfl
  · rintro (hst | hy)
    · rw [wall_collisions_of_stuck g hst]
    · unfold wall_collisions
      dsimp only
      split_ifs <;> rfl

lemma brick_collisions_lives (g : BreakoutGame) :
    (brick_collisions g).lives = g.lives := by
  unfold brick_collisions
  dsimp only
  split_ifs <;> simp

lemma tick_of_game_over (g : BreakoutGame) (h : g.game_over = true) :
    tick g = g := by
  rw [tick, if_pos h]

lemma tick_iterate_of_game_over (s : BreakoutGame) (hs : s.game_over = true) :
    ∀ n : ℕ, tick^[n] s = s := by
  intro n
  induction n with
  | zero => rfl
  | succ n ih => rw [Function.iterate_succ_apply, tick_of_game_over s hs, ih]

/-- C3: a bottom-wall breach of a free ball with the last life sets
`game_over`, and a `tick` in the `game_over` state changes nothing at
all (so `game_over` stays true and every entity position and brick
visibility flag is frozen until `restart`). -/
theorem lives_exhausted_game_over_and_freeze (g : BreakoutGame) :
    (g.ball.stuck = false → g.ball.y ≤ BOTTOM_WALL - 60 → g.lives = 1 →
      (wall_collisions g).game_over = true ∧ (wall_collisions g).lives = 0) ∧
    (g.game_over = true → tick g = g) := by
  constructor
  · intro hst hy hl
    have h := wall_collisions_fatal g hst hy (by omega)
    refine ⟨h.1, ?_⟩
    rw [h.2.1, hl]
    norm_num
  · exact tick_of_game_over g

/-! ### Concrete breach states for the witnesses -/

def g_fatal : BreakoutGame :=
  { paddle := { x := 0, y := PADDLE_Y },
    ball := { x := 0, y := -400, dx := 0, dy := 0, speed_mag := 6,
              stuck := false },
    bricks := [brick_side], score := 0, lives := 1, level := 1,
    game_over := false, ball_speed_start := 6 }

def g_over : BreakoutGame := { g_fatal with game_over := true, lives := 0 }

lemma g_fatal_breach : g_fatal.ball.y ≤ BOTTOM_WALL - 60 := by
  norm_num [g_fatal, BOTTOM_WALL, HEIGHT]

/-- Witness for C3 at concrete states. -/
theorem lives_exhausted_game_over_and_freeze_witness :
    (wall_collisions g_fatal).game_over = true ∧ tick g_over = g_over := by
  exact ⟨((lives_exhausted_game_over_and_freeze g_fatal).1 rfl
           g_fatal_breach rfl).1,
         (lives_exhausted_game_over_and_freeze g_over).2 rfl⟩

/-- C4: `wall_collisions` decrements `lives` by exactly 1 on a bottom
breach of a free ball and leaves `lives` unchanged otherwise; within a
`tick` of a live game (with the paddle at its fixed height) `lives`
drops by 1 exactly when the ball's `y` at wall-check time has reached
the bottom-breach threshold `BOTTOM_WALL - 60`; a `tick` never changes
`lives` by any other amount, and no operation except `restart` raises
it (`restart` resets it to `LIVES_START`). -/
theorem lives_decrease_iff_bottom_breach (g : BreakoutGame) :
    (g.ball.stuck = false ∧ g.ball.y ≤ BOTTOM_WALL - 60 →
      (wall_collisions g).lives = g.lives - 1) ∧
    (g.ball.stuck = true ∨ ¬(g.ball.y ≤ BOTTOM_WALL - 60) →
      (wall_collisions g).lives = g.lives) ∧
    (g.game_over = false → g.paddle.y = PADDLE_Y →
      ((tick g).lives = g.lives - 1 ↔
        (paddle_ball_collision { g with ball := update g.ball }).ball.y ≤
          BOTTOM_WALL - 60)) ∧
    ((tick g).lives = g.lives ∨ (tick g).lives = g.lives - 1) ∧
    (next_level g).lives = g.lives ∧
    (reset_round g false).lives = g.lives ∧
    (restart g).lives = LIVES_START := by
  have hml : ∀ g' : BreakoutGame, (paddle_ball_collision g').lives = g'.lives :=
    fun g' => (paddle_ball_collision_frame g').2.2.1
  refine ⟨(wall_collisions_lives g).1, (wall_collisions_lives g).2, ?_, ?_, rfl,
    by simp [reset_round], by simp [restart, reset_round]⟩
  · intro hgo hpy
    have ht : (tick g).lives =
        (wall_collisions (paddle_ball_collision
          { g with ball := update g.ball })).lives := by
      rw [tick, if_neg (by simp [hgo]), brick_collisions_lives]
      rfl
    have hml' : (paddle_ball_collision
        { g with ball := update g.ball }).lives = g.lives := hml _
    by_cases hst : (paddle_ball_collision
        { g with ball := update g.ball }).ball.stuck = true
    · have hin : g.ball.stuck = true := by
        have h1 := paddle_ball_collision_ball_stuck
          { g with ball := update g.ball }
        rw [hst] at h1
        have h2 := update_stuck g.ball
        rw [← h1] at h2
        exact h2.symm
      have hmy : (paddle_ball_collision
          { g with ball := update g.ball }).ball.y = g.paddle.y + 20 := by
        rw [paddle_ball_collision_of_stuck _ (by simp [update_stuck, hin])]
      constructor
      · intro hL
        exfalso
        rw [ht, wall_collisions_of_stuck _ hst, hml'] at hL
        omega
      · intro hR
        exfalso
        rw [hmy, hpy] at hR
        norm_num [PADDLE_Y, BOTTOM_WALL, HEIGHT] at hR
    · have hstf : (paddle_ball_collision
          { g with ball := update g.ball }).ball.stuck = false := by
        cases hx : (paddle_ball_collision
            { g with ball := update g.ball }).ball.stuck with
        | false => rfl
        | true => exact absurd hx hst
      by_cases hy : (paddle_ball_collision
          { g with ball := update g.ball }).ball.y ≤ BOTTOM_WALL - 60
      · refine ⟨fun _ => hy, fun _ => ?_⟩
        rw [ht, (wall_collisions_lives _).1 ⟨hstf, hy⟩, hml']
      · refine ⟨fun hL => ?_, fun hR => absurd hR hy⟩
        exfalso
        rw [ht, (wall_collisions_lives _).2 (Or.inr hy), hml'] at hL
        omega
  · by_cases hgo : g.game_over = true
    · left
      rw [tick_of_game_over g hgo]
    · have ht : (tick g).lives =
          (wall_collisions (paddle_ball_collision
            { g with ball := update g.ball })).lives := by
        rw [tick, if_neg hgo, brick_collisions_lives]
        rfl
      by_cases hst : (paddle_ball_collision
          { g with ball := update g.ball }).ball.stuck = true
      · left
        rw [ht, wall_collisions_of_stuck _ hst, hml _]
      · have hstf : (paddle_ball_collision
            { g with ball := update g.ball }).ball.stuck = false := by
          cases hx : (paddle_ball_collision
              { g with ball := update g.ball }).ball.stuck with
          | false => rfl
          | true => exact absurd hx hst
        by_cases hy : (paddle_ball_collision
            { g with ball := update g.ball }).ball.y ≤ BOTTOM_WALL - 60
        · right
          rw [ht, (wall_collisions_lives _).1 ⟨hstf, hy⟩, hml _]
        · left
          rw [ht, (wall_collisions_lives _).2 (Or.inr hy), hml _]

/-- Witness for C4 at a concrete breach state. -/
theorem lives_decrease_iff_bottom_breach_witness :
    (wall_collisions g_fatal).lives = g_fatal.lives - 1 ∧
    ((tick g_fatal).lives = g_fatal.lives - 1 ↔
      (paddle_ball_collision
        { g_fatal with ball := update g_fatal.ball }).ball.y ≤
        BOTTOM_WALL - 60) := by
  exact ⟨(lives_decrease_iff_bottom_breach g_fatal).1 ⟨rfl, g_fatal_breach⟩,
         (lives_decrease_iff_bottom_breach g_fatal).2.2.1 rfl rfl⟩

/-- C10: on the breach that drops `lives` to 0 the ball is not reset to
the paddle: its `y` keeps the out-of-bounds value below the bottom
threshold and it stays unstuck while the game enters `game_over`; from
a `game_over` state every iterate of `tick` leaves the ball (and the
whole state) unchanged. -/
theorem fatal_breach_keeps_ball_out_of_bounds (g : BreakoutGame) :
    (g.ball.stuck = false → g.ball.y ≤ BOTTOM_WALL - 60 → g.lives = 1 →
      (wall_collisions g).ball.y = g.ball.y ∧
      (wall_collisions g).ball.y ≤ BOTTOM_WALL - 60 ∧
      (wall_collisions g).ball.stuck = false ∧
      (wall_collisions g).game_over = true) ∧
    (∀ s : BreakoutGame, s.game_over = true → ∀ n : ℕ,
      (tick^[n] s).ball = s.ball) := by
  constructor
  · intro hst hy hl
    have h := wall_collisions_fatal g hst hy (by omega)
    refine ⟨h.2.2.1, ?_, h.2.2.2, h.1⟩
    rw [h.2.2.1]
    exact hy
  · intro s hs n
    rw [tick_iterate_of_game_over s hs n]

/-- Witness for C10 at concrete states. -/
theorem fatal_breach_keeps_ball_out_of_bounds_witness :
    (wall_collisions g_fatal).ball.y = g_fatal.ball.y ∧
    (tick^[2] g_over).ball = g_over.ball := by
  exact ⟨((fatal_breach_keeps_ball_out_of_bounds g_fatal).1 rfl
           g_fatal_breach rfl).1,
         (fatal_breach_keeps_ball_out_of_bounds g_fatal).2 g_over rfl 2⟩

/-! ### Launch -/

/-- C5: `launch` is a no-op on a free ball; on a stuck ball, for any
angle the random source can draw (always inside `[35, 145]` degrees)
the velocity becomes `(cos angle, sin angle)` scaled by the speed
magnitude, the vertical component is strictly positive (upward motion)
and the ball is no longer stuck. -/
theorem launch_upward_within_bounds (b : Ball) (angle : ℝ) :
    (b.stuck = false → launch b angle = b) ∧
    (b.stuck = true → 35 ≤ angle → angle ≤ 145 → 0 < b.speed_mag →
      (launch b angle).stuck = false ∧
      (launch b angle).dx = Real.cos (angle * Real.pi / 180) * b.speed_mag ∧
      (launch b angle).dy = Real.sin (angle * Real.pi / 180) * b.speed_mag ∧
      0 < (launch b angle).dy) := by
  constructor
  · intro h
    rw [launch, if_pos h]
  · intro hs h35 h145 hmag
    have hL : launch b angle =
        { b with stuck := false,
                 dx := Real.cos (angle * Real.pi / 180) * b.speed_mag,
                 dy := Real.sin (angle * Real.pi / 180) * b.speed_mag } := by
      rw [launch, if_neg (by simp [hs])]
    have hsin : 0 < Real.sin (angle * Real.pi / 180) := by
      apply Real.sin_pos_of_pos_of_lt_pi
      · apply div_pos (mul_pos (by linarith) Real.pi_pos) (by norm_num)
      · have hlt : angle * Real.pi < 180 * Real.pi :=
          mul_lt_mul_of_pos_right (by linarith) Real.pi_pos
        calc angle * Real.pi / 180 < 180 * Real.pi / 180 := by linarith
          _ = Real.pi := by ring
    rw [hL]
    exact ⟨rfl, rfl, rfl, mul_pos hsin hmag⟩

def ball_stuck_init : Ball :=
  { x := 0, y := -230, dx := 0, dy := 0, speed_mag := 6, stuck := true }

/-- Witness for C5 at the 90-degree launch of a stuck ball, and the
no-op on a free ball. -/
theorem launch_upward_within_bounds_witness :
    launch ball_free_origin 90 = ball_free_origin ∧
    (launch ball_stuck_init 90).stuck = false ∧
    0 < (launch ball_stuck_init 90).dy := by
  have h2 := (launch_upward_within_bounds ball_stuck_init 90).2 rfl
    (by norm_num) (by norm_num) (by norm_num [ball_stuck_init])
  exact ⟨(launch_upward_within_bounds ball_free_origin 90).1 rfl,
         h2.1, h2.2.2.2⟩

/-! ### Speed-up -/

lemma hypot_mul (c x y : ℝ) : hypot (x * c) (y * c) = |c| * hypot x y := by
  unfold hypot
  have h : x * c * (x * c) + y * c * (y * c) = (c * c) * (x * x + y * y) := by
    ring
  rw [h, Real.sqrt_mul (mul_self_nonneg c), Real.sqrt_mul_self_eq_abs]

lemma hypot_zero : hypot 0 0 = 0 := by
  unfold hypot
  norm_num

/-- C6: `speed_up` sets the speed magnitude to
`min BALL_SPEED_MAX (old + amount)`; when the prior velocity is
nonzero the velocity is rescaled so that its `hypot` equals the new
magnitude with the normalized direction unchanged, and when the prior
velocity is zero the velocity components are untouched. -/
theorem speed_up_magnitude_and_direction (b : Ball) (amount : ℝ) :
    (speed_up b amount).speed_mag = min BALL_SPEED_MAX (b.speed_mag + amount) ∧
    (0 < hypot b.dx b.dy → 0 < b.speed_mag + amount →
      hypot (speed_up b amount).dx (speed_up b amount).dy =
        (speed_up b amount).speed_mag ∧
      (speed_up b amount).dx / (speed_up b amount).speed_mag =
        b.dx / hypot b.dx b.dy ∧
      (speed_up b amount).dy / (speed_up b amount).speed_mag =
        b.dy / hypot b.dx b.dy) ∧
    (b.dx = 0 ∧ b.dy = 0 →
      (speed_up b amount).dx = b.dx ∧ (speed_up b amount).dy = b.dy) := by
  refine ⟨speed_up_speed_mag b amount, ?_, ?_⟩
  · intro hmag hpos
    have hs' : 0 < min BALL_SPEED_MAX (b.speed_mag + amount) :=
      lt_min (by norm_num [BALL_SPEED_MAX]) hpos
    have hb : speed_up b amount =
        { b with speed_mag := min BALL_SPEED_MAX (b.speed_mag + amount),
                 dx := b.dx / hypot b.dx b.dy *
                   min BALL_SPEED_MAX (b.speed_mag + amount),
                 dy := b.dy / hypot b.dx b.dy *
                   min BALL_SPEED_MAX (b.speed_mag + amount) } := by
      unfold speed_up
      dsimp only
      rw [if_pos hmag]
    rw [hb]
    dsimp only
    refine ⟨?_, ?_, ?_⟩
    · have h1 : b.dx / hypot b.dx b.dy *
          min BALL_SPEED_MAX (b.speed_mag + amount) =
          b.dx * (min BALL_SPEED_MAX (b.speed_mag + amount) /
            hypot b.dx b.dy) := by ring
      have h2 : b.dy / hypot b.dx b.dy *
          min BALL_SPEED_MAX (b.speed_mag + amount) =
          b.dy * (min BALL_SPEED_MAX (b.speed_mag + amount) /
            hypot b.dx b.dy) := by ring
      rw [h1, h2, hypot_mul, abs_of_pos (div_pos hs' hmag),
          div_mul_cancel₀ _ (ne_of_gt hmag)]
    · rw [mul_div_cancel_right₀ _ (ne_of_gt hs')]
    · rw [mul_div_cancel_right₀ _ (ne_of_gt hs')]
  · rintro ⟨hdx, hdy⟩
    have hmag0 : hypot b.dx b.dy = 0 := by
      rw [hdx, hdy, hypot_zero]
    unfold speed_up
    dsimp only
    rw [if_neg (by simp [hmag0])]
    exact ⟨rfl, rfl⟩

def ball_345 : Ball :=
  { x := 0, y := 0, dx := 3, dy := 4, speed_mag := 5, stuck := false }

lemma hypot_ball_345 : hypot ball_345.dx ball_345.dy = 5 := by
  show hypot 3 4 = 5
  unfold hypot
  rw [show (3 : ℝ) * 3 + 4 * 4 = 5 ^ 2 by norm_num,
      Real.sqrt_sq (by norm_num)]

/-- Witness for C6 at a concrete 3-4-5 velocity. -/
theorem speed_up_magnitude_and_direction_witness :
    (speed_up ball_345 1).speed_mag =
      min BALL_SPEED_MAX (ball_345.speed_mag + 1) ∧
    hypot (speed_up ball_345 1).dx (speed_up ball_345 1).dy =
      (speed_up ball_345 1).speed_mag := by
  have h := speed_up_magnitude_and_direction ball_345 1
  have h2 := h.2.1 (by rw [hypot_ball_345]; norm_num)
    (by norm_num [ball_345])
  exact ⟨h.1, h2.1⟩

/-! ### Level completion -/

/-- C7: when the scan leaves no visible brick while the ball is in play,
the level increments by exactly 1, the per-level baseline starting speed
is raised by `0.5` capped at `10` (a bound strictly below the in-play
maximum `BALL_SPEED_MAX = 14`), the full brick field is rebuilt with
every brick visible, and the ball is reset stuck onto the paddle at the
new baseline speed. -/
theorem level_complete_advances_level (g : BreakoutGame)
    (hst : g.ball.stuck = false)
    (hall : (brick_scan g).bricks.all (fun b => !b.visible) = true) :
    brick_collisions g = next_level (brick_scan g) ∧
    (brick_collisions g).level = g.level + 1 ∧
    (brick_collisions g).ball_speed_start =
      min 10 (g.ball_speed_start + 1 / 2) ∧
    (brick_collisions g).bricks = build_bricks ∧
    (∀ b ∈ (brick_collisions g).bricks, b.visible = true) ∧
    (brick_collisions g).ball.stuck = true ∧
    (brick_collisions g).ball.speed_mag =
      min 10 (g.ball_speed_start + 1 / 2) ∧
    (brick_collisions g).ball.x = g.paddle.x ∧
    (brick_collisions g).ball.y = g.paddle.y + 20 ∧
    (10 : ℝ) < BALL_SPEED_MAX := by
  have hbc : brick_collisions g = next_level (brick_scan g) := by
    rw [brick_collisions_of_not_stuck g hst, if_pos hall]
  refine ⟨hbc, ?_, ?_, ?_, ?_, ?_, ?_, ?_, ?_, by norm_num [BALL_SPEED_MAX]⟩
  · rw [hbc]; rfl
  · rw [hbc]; rfl
  · rw [hbc]; rfl
  · rw [hbc, next_level_bricks]; exact build_bricks_visible
  · rw [hbc]; rfl
  · rw [hbc]; rfl
  · rw [hbc]; rfl
  · rw [hbc]; rfl

def g_cleared : BreakoutGame :=
  { paddle := { x := 0, y := PADDLE_Y },
    ball := ball_free_origin,
    bricks := [{ x := 200, y := 0, color := "", visible := false }],
    score := 0, lives := 3, level := 1, game_over := false,
    ball_speed_start := 6 }

lemma g_cleared_scan :
    (brick_scan g_cleared).bricks.all (fun b => !b.visible) = true := by
  have hnone : ∀ b ∈ g_cleared.bricks,
      ¬ brick_hit g_cleared.ball.x g_cleared.ball.y b := by
    intro b hb
    simp only [g_cleared, List.mem_singleton] at hb
    subst hb
    intro hcon
    exact absurd hcon.1 (by simp)
  rw [brick_scan_bricks, brick_scan_aux_of_no_hit _ _ _ _ _ hnone]
  simp [g_cleared]

/-- Witness for C7 at a concrete cleared field. -/
theorem level_complete_advances_level_witness :
    (brick_collisions g_cleared).level = g_cleared.level + 1 ∧
    (brick_collisions g_cleared).ball.stuck = true := by
  have h := level_complete_advances_level g_cleared rfl g_cleared_scan
  exact ⟨h.2.1, h.2.2.2.2.2.1⟩

/-! ### Paddle movement -/

inductive Move where
  | left : Move
  | right : Move

def apply_move (p : Paddle) (m : Move) : Paddle :=
  match m with
  | Move.left => move_left p
  | Move.right => move_right p

def apply_moves (p : Paddle) (ms : List Move) : Paddle := ms.foldl apply_move p

/-- The paddle of `Paddle.__init__` / `reset_round`: `goto(0, PADDLE_Y)`. -/
def initial_paddle : Paddle := { x := 0, y := PADDLE_Y }

lemma clamp_mem (x lo hi : ℝ) (h : lo ≤ hi) :
    lo ≤ clamp x lo hi ∧ clamp x lo hi ≤ hi := by
  unfold clamp
  exact ⟨le_max_left _ _, max_le h (min_le_left _ _)⟩

lemma apply_moves_bounded (ms : List Move) (p : Paddle)
    (h1 : -(WIDTH / 2 - PADDLE_W / 2 - 12) ≤ p.x)
    (h2 : p.x ≤ WIDTH / 2 - PADDLE_W / 2 - 12) :
    -(WIDTH / 2 - PADDLE_W / 2 - 12) ≤ (apply_moves p ms).x ∧
    (apply_moves p ms).x ≤ WIDTH / 2 - PADDLE_W / 2 - 12 := by
  induction ms generalizing p with
  | nil => exact ⟨h1, h2⟩
  | cons m rest ih =>
    have hlim : -(WIDTH / 2 - PADDLE_W / 2 - 12) ≤
        WIDTH / 2 - PADDLE_W / 2 - 12 := by
      norm_num [WIDTH, PADDLE_W]
    have hstep : -(WIDTH / 2 - PADDLE_W / 2 - 12) ≤ (apply_move p m).x ∧
        (apply_move p m).x ≤ WIDTH / 2 - PADDLE_W / 2 - 12 := by
      cases m with
      | left => exact clamp_mem (p.x - PADDLE_SPEED) _ _ hlim
      | right => exact clamp_mem (p.x + PADDLE_SPEED) _ _ hlim
    exact ih (apply_move p m) hstep.1 hstep.2

/-- C8: starting from the initial paddle position, any sequence of
`move_left` / `move_right` calls keeps the paddle `x` inside
`[-limit, limit]` with `limit = WIDTH / 2 - PADDLE_W / 2 - 12`. -/
theorem paddle_x_always_clamped (ms : List Move) :
    -(WIDTH / 2 - PADDLE_W / 2 - 12) ≤ (apply_moves initial_paddle ms).x ∧
    (apply_moves initial_paddle ms).x ≤ WIDTH / 2 - PADDLE_W / 2 - 12 := by
  exact apply_moves_bounded ms initial_paddle
    (by norm_num [initial_paddle, WIDTH, PADDLE_W])
    (by norm_num [initial_paddle, WIDTH, PADDLE_W])

/-! ### Paddle moves are not idempotent -/

/-- Counterexample to C9: from the initial paddle, one `move_left` puts
the paddle at `-30` but two put it at `-60`, so applying the move twice
does not equal applying it once. -/
theorem move_left_not_idempotent :
    (move_left (move_left initial_paddle)).x ≠ (move_left initial_paddle).x := by
  norm_num [move_left, clamp, initial_paddle, WIDTH, PADDLE_W, PADDLE_SPEED,
    min_def, max_def]

lemma clamp_sub_step_eq_iff (c step lo hi : ℝ) (hstep : 0 < step)
    (h1 : lo ≤ c) (h2 : c ≤ hi) :
    clamp (c - step) lo hi = c ↔ c = lo := by
  unfold clamp
  rw [min_eq_right (by linarith)]
  constructor
  · intro h
    rcases max_cases lo (c - step) with ⟨hmax, -⟩ | ⟨hmax, -⟩ <;>
      rw [hmax] at h <;> first | exact h.symm | linarith
  · intro h
    rw [h, max_eq_left (by linarith)]

lemma clamp_add_step_eq_iff (c step lo hi : ℝ) (hstep : 0 < step)
    (h1 : lo ≤ c) (h2 : c ≤ hi) :
    clamp (c + step) lo hi = c ↔ c = hi := by
  unfold clamp
  constructor
  · intro h
    rcases min_cases hi (c + step) with ⟨hmin, -⟩ | ⟨hmin, -⟩ <;>
      rw [hmin] at h
    · rw [max_eq_right (by linarith)] at h
      exact h.symm
    · rw [max_eq_right (by linarith)] at h
      linarith
  · intro h
    rw [h, min_eq_left (by linarith), max_eq_right (by linarith)]

/-- C9 amended: a paddle move never touches anything but `x`, and
applying the same move twice equals applying it once exactly when the
single application already rests at the corresponding clamp limit — in
the interior, a second application moves one further step, so the moves
are not idempotent in general. -/
theorem move_twice_eq_once_iff_at_limit (p : Paddle) :
    (move_left p).y = p.y ∧ (move_right p).y = p.y ∧
    ((move_left (move_left p)).x = (move_left p).x ↔
      (move_left p).x = -(WIDTH / 2 - PADDLE_W / 2 - 12)) ∧
    ((move_right (move_right p)).x = (move_right p).x ↔
      (move_right p).x = WIDTH / 2 - PADDLE_W / 2 - 12) := by
  have hlim : -(WIDTH / 2 - PADDLE_W / 2 - 12) ≤
      WIDTH / 2 - PADDLE_W / 2 - 12 := by
    norm_num [WIDTH, PADDLE_W]
  have hmemL := clamp_mem (p.x - PADDLE_SPEED)
    (-(WIDTH / 2 - PADDLE_W / 2 - 12)) (WIDTH / 2 - PADDLE_W / 2 - 12) hlim
  have hmemR := clamp_mem (p.x + PADDLE_SPEED)
    (-(WIDTH / 2 - PADDLE_W / 2 - 12)) (WIDTH / 2 - PADDLE_W / 2 - 12) hlim
  refine ⟨rfl, rfl, ?_, ?_⟩
  · exact clamp_sub_step_eq_iff ((move_left p).x) PADDLE_SPEED _ _
      (by norm_num [PADDLE_SPEED]) hmemL.1 hmemL.2
  · exact clamp_add_step_eq_iff ((move_right p).x) PADDLE_SPEED _ _
      (by norm_num [PADDLE_SPEED]) hmemR.1 hmemR.2

end

end Breakout
